import Mathlib

/-
Verification of the pathfinding-visualization repository's core pathing
engine (src/movement.py, src/pathing.py, src/helpers.py) against its
natural-language specification.

The Python code is shallowly embedded: enumerations become inductive types,
bit flags become Nat bitmasks, Python dicts become association lists with
replace-on-duplicate-key insertion, Python sets become membership-checked
lists, and the two BFS while-loops become fuel-based structural recursion
(the fuel is chosen generously; a fuel-exhausted run returns none, and the
concrete evaluations below all terminate well within the supplied fuel).
Frontier lists are kept with the most recently pushed element at the head,
so Python's append/pop at the tail of a list becomes cons/head here.
-/

namespace PathViz

/-- Terrain enumeration from movement.py (class Terrain, an IntEnum). -/
inductive Terrain where
  | EMPTY
  | UNDERGROUND
  | UNDERWATER
  | DEEP
  | SHALLOW
  | FLAT
  | LOW
  | MEDIUM
  | HIGH
  | LOW_WALL_N
  | LOW_WALL_W
  | HIGH_WALL_N
  | HIGH_WALL_W
  | AIR
deriving DecidableEq

/-- Integer value of each Terrain member, as assigned by the IntEnum in
movement.py (EMPTY = 0 through AIR = 13). -/
def Terrain.val : Terrain → Nat
  | .EMPTY => 0
  | .UNDERGROUND => 1
  | .UNDERWATER => 2
  | .DEEP => 3
  | .SHALLOW => 4
  | .FLAT => 5
  | .LOW => 6
  | .MEDIUM => 7
  | .HIGH => 8
  | .LOW_WALL_N => 9
  | .LOW_WALL_W => 10
  | .HIGH_WALL_N => 11
  | .HIGH_WALL_W => 12
  | .AIR => 13

/-- Terrain.is_north_wall from movement.py. -/
def Terrain.is_north_wall : Terrain → Bool
  | .LOW_WALL_N => true
  | .HIGH_WALL_N => true
  | _ => false

/-- Terrain.is_west_wall from movement.py. -/
def Terrain.is_west_wall : Terrain → Bool
  | .LOW_WALL_W => true
  | .HIGH_WALL_W => true
  | _ => false

/-- MovementType enumeration from movement.py. -/
inductive MovementType where
  | TERRESTRIAL
  | SUBTERRANEAN
  | AMPHIBIOUS
  | DEEP_AMPHIBIOUS
  | AQUATIC
  | AERIAL
deriving DecidableEq

/-- Direction enumeration from helpers.py (ten-way directions). -/
inductive Direction where
  | N
  | S
  | E
  | W
  | NE
  | NW
  | SE
  | SW
  | ABOVE
  | BELOW
deriving DecidableEq

/-- Opposite of a compass direction (N and S swap, E and W swap, each
diagonal swaps with the diagonal across the tile, ABOVE and BELOW swap). -/
def Direction.opposite : Direction → Direction
  | .N => .S
  | .S => .N
  | .E => .W
  | .W => .E
  | .NE => .SW
  | .SW => .NE
  | .NW => .SE
  | .SE => .NW
  | .ABOVE => .BELOW
  | .BELOW => .ABOVE

/-- Association-list update with Python-dict semantics: replace the value of
an existing key in place, otherwise append the pair at the end. -/
def dictInsert {κ ν : Type} [DecidableEq κ] (k : κ) (v : ν) :
    List (κ × ν) → List (κ × ν)
  | [] => [(k, v)]
  | p :: rest => if p.1 = k then (k, v) :: rest else p :: dictInsert k v rest

/-- Association-list lookup with Python-dict semantics (dict.get). -/
def dictGet {κ ν : Type} [DecidableEq κ] (k : κ) : List (κ × ν) → Option ν
  | [] => none
  | p :: rest => if p.1 = k then some p.2 else dictGet k rest

/-- Location from pathing.py: node ID plus Terrain. -/
structure Location where
  nid : Nat
  terrain : Terrain
deriving DecidableEq

/-- LocationMap from pathing.py: running node-ID counter and the three
coordinate-keyed dictionaries (tiles, north walls, west walls). -/
structure LocationMap where
  nid : Nat
  tiles : List ((Int × Int) × Location)
  walls_n : List ((Int × Int) × Location)
  walls_w : List ((Int × Int) × Location)
deriving DecidableEq

/-- A LocationMap as produced by LocationMap.__init__. -/
def LocationMap.empty : LocationMap :=
  { nid := 0, tiles := [], walls_n := [], walls_w := [] }

/-- LocationMap.insert from pathing.py: north walls are stored only when
y > 0, west walls only when x > 0, everything else is stored as a tile;
each store uses the current node ID and increments the counter. -/
def LocationMap.insert (m : LocationMap) (x y : Int) (terrain : Terrain) :
    LocationMap :=
  if terrain.is_north_wall then
    if 0 < y then
      { m with walls_n := dictInsert (x, y) ⟨m.nid, terrain⟩ m.walls_n,
               nid := m.nid + 1 }
    else m
  else if terrain.is_west_wall then
    if 0 < x then
      { m with walls_w := dictInsert (x, y) ⟨m.nid, terrain⟩ m.walls_w,
               nid := m.nid + 1 }
    else m
  else
    { m with tiles := dictInsert (x, y) ⟨m.nid, terrain⟩ m.tiles,
             nid := m.nid + 1 }

/-- LocationMap.get_north_wall_id from pathing.py: looks up walls_n. -/
def LocationMap.get_north_wall_id (m : LocationMap) (x y : Int) : Option Nat :=
  (dictGet (x, y) m.walls_n).map Location.nid

/-- LocationMap.get_west_wall_id from pathing.py: the source consults
self.walls_n (pathing.py line 78), transcribed exactly as written. -/
def LocationMap.get_west_wall_id (m : LocationMap) (x y : Int) : Option Nat :=
  (dictGet (x, y) m.walls_n).map Location.nid

/-- All node IDs stored in a LocationMap, across the tiles, north-wall and
west-wall dictionaries. -/
def LocationMap.storedIds (m : LocationMap) : List Nat :=
  (m.tiles ++ m.walls_n ++ m.walls_w).map (fun p => p.2.nid)

/-- Fold a sequence of insert calls (x, y, terrain) over a LocationMap. -/
def LocationMap.applyInserts (m : LocationMap)
    (ops : List (Int × Int × Terrain)) : LocationMap :=
  ops.foldl (fun acc op => acc.insert op.1 op.2.1 op.2.2) m

/-- Which dictionary of a LocationMap an insert call stores into. -/
inductive SlotKind where
  | tile
  | wallN
  | wallW
deriving DecidableEq

/-- The (dictionary, key) slot an insert call actually stores into, or none
when the call stores nothing (north wall with y <= 0, west wall with
x <= 0), mirroring the guards of LocationMap.insert. -/
def insertSlot (op : Int × Int × Terrain) : Option (SlotKind × Int × Int) :=
  if op.2.2.is_north_wall then
    if 0 < op.2.1 then some (.wallN, op.1, op.2.1) else none
  else if op.2.2.is_west_wall then
    if 0 < op.1 then some (.wallW, op.1, op.2.1) else none
  else some (.tile, op.1, op.2.1)

/-- Neighbors from pathing.py: optional tile IDs of the eight neighbors.
Slots hold Int because the source computes them by plain integer
arithmetic before boundary clearing. -/
structure Neighbors where
  NW : Option Int
  N : Option Int
  NE : Option Int
  W : Option Int
  E : Option Int
  SW : Option Int
  S : Option Int
  SE : Option Int
deriving DecidableEq

/-- Neighbors.empty from pathing.py. -/
def Neighbors.empty : Neighbors :=
  { NW := none, N := none, NE := none, W := none,
    E := none, SW := none, S := none, SE := none }

/-- The slot of a Neighbors record in a given compass direction (the
NeighborMap stores no vertical neighbors, so ABOVE and BELOW give none). -/
def Neighbors.get (nb : Neighbors) : Direction → Option Int
  | .NW => nb.NW
  | .N => nb.N
  | .NE => nb.NE
  | .W => nb.W
  | .E => nb.E
  | .SW => nb.SW
  | .S => nb.S
  | .SE => nb.SE
  | .ABOVE => none
  | .BELOW => none

/-- NeighborMap.neighbors from pathing.py. The source computes the eight
candidate IDs by integer arithmetic and then clears slots with an
if div == 0 / elif div == xdims - 1 chain on the column and an
if tid < xdims / elif tid >= xdims * ydims - xdims chain on the row;
here each slot is written with its accumulated clearing condition
(an elif branch fires only when the if branch did not). -/
def NeighborMap.neighbors (tid xdims ydims : Int) : Neighbors :=
  { NW := if tid % xdims = 0 ∨ tid < xdims then none
          else some (tid - xdims - 1),
    N := if tid < xdims then none else some (tid - xdims),
    NE := if (¬ tid % xdims = 0 ∧ tid % xdims = xdims - 1) ∨ tid < xdims
          then none else some (tid - xdims + 1),
    W := if tid % xdims = 0 then none else some (tid - 1),
    E := if ¬ tid % xdims = 0 ∧ tid % xdims = xdims - 1 then none
         else some (tid + 1),
    SW := if tid % xdims = 0 ∨
             (¬ tid < xdims ∧ xdims * ydims - xdims ≤ tid) then none
          else some (tid + xdims - 1),
    S := if ¬ tid < xdims ∧ xdims * ydims - xdims ≤ tid then none
         else some (tid + xdims),
    SE := if (¬ tid % xdims = 0 ∧ tid % xdims = xdims - 1) ∨
             (¬ tid < xdims ∧ xdims * ydims - xdims ≤ tid) then none
          else some (tid + xdims + 1) }

/-- Node from pathing.py: coordinates, terrain, feature bitmask (Features
IntFlag encoded as a Nat), the eight optional neighbor node IDs, and the
above/below terrain computed by the constructor. -/
structure Node where
  x : Int
  y : Int
  terrain : Terrain
  features : Nat
  N : Option Nat
  S : Option Nat
  E : Option Nat
  W : Option Nat
  NW : Option Nat
  NE : Option Nat
  SW : Option Nat
  SE : Option Nat
  above : Terrain
  below : Terrain
deriving DecidableEq

/-- Node.__init__ from pathing.py: raising ValueError is modelled as
Except.error with the source's message. EMPTY, UNDERGROUND, UNDERWATER and
AIR are rejected; DEEP gets below = UNDERWATER; every other terrain gets
below = UNDERGROUND; above is always AIR. -/
def Node.init (x y : Int) (terrain : Terrain) (features : Nat)
    (N S E W NW NE SW SE : Option Nat) : Except String Node :=
  match terrain with
  | .EMPTY => .error "EMPTY is an invalid base terrain!"
  | .UNDERGROUND => .error "UNDERGROUND is an invalid base terrain!"
  | .UNDERWATER => .error "UNDERWATER is an invalid base terrain!"
  | .AIR => .error "AIR is an invalid base terrain!"
  | .DEEP =>
    .ok { x := x, y := y, terrain := .DEEP, features := features,
          N := N, S := S, E := E, W := W, NW := NW, NE := NE, SW := SW,
          SE := SE, above := .AIR, below := .UNDERWATER }
  | t =>
    .ok { x := x, y := y, terrain := t, features := features,
          N := N, S := S, E := E, W := W, NW := NW, NE := NE, SW := SW,
          SE := SE, above := .AIR, below := .UNDERGROUND }

/-- Python truthiness filter used by the edge-list comprehensions:
an Optional[int] slot contributes to the list only when it is neither
None nor 0 (the guard is written "if edge" in the source). -/
def truthyNat : Option Nat → Option Nat
  | some k => if k = 0 then none else some k
  | none => none

/-- Node.edges from pathing.py: all truthy neighbor slots, in the order
(NW, NE, SW, SE, N, W, E, S). -/
def Node.edges (nd : Node) : List Nat :=
  [nd.NW, nd.NE, nd.SW, nd.SE, nd.N, nd.W, nd.E, nd.S].filterMap truthyNat

/-- Node.edges_cardinal from pathing.py: truthy slots among (N, W, E, S). -/
def Node.edges_cardinal (nd : Node) : List Nat :=
  [nd.N, nd.W, nd.E, nd.S].filterMap truthyNat

/-- Node.edges_diagonal from pathing.py: truthy slots among
(NW, NE, SW, SE). -/
def Node.edges_diagonal (nd : Node) : List Nat :=
  [nd.NW, nd.NE, nd.SW, nd.SE].filterMap truthyNat

/-- The mapping interface that pathing.py expects of a PathContext at its
call sites: indexing by a source Terrain yields the bitmask of valid
target terrain (context[self.terrain] in the source). -/
def PathContext : Type := Terrain → Nat

/-- Node.has_valid_neighbor_n from pathing.py: the body only tests
context[self.terrain] & tgt.terrain == 0 and otherwise returns True
(no wall is consulted, although the docstring lists a wall condition). -/
def Node.has_valid_neighbor_n (s tgt : Node) (context : PathContext) : Bool :=
  if context s.terrain &&& tgt.terrain.val = 0 then false else true

/-- Node.has_valid_neighbor_s from pathing.py (same body as the N check). -/
def Node.has_valid_neighbor_s (s tgt : Node) (context : PathContext) : Bool :=
  if context s.terrain &&& tgt.terrain.val = 0 then false else true

/-- Node.has_valid_neighbor_e from pathing.py (same body as the N check). -/
def Node.has_valid_neighbor_e (s tgt : Node) (context : PathContext) : Bool :=
  if context s.terrain &&& tgt.terrain.val = 0 then false else true

/-- Node.has_valid_neighbor_w from pathing.py (same body as the N check). -/
def Node.has_valid_neighbor_w (s tgt : Node) (context : PathContext) : Bool :=
  if context s.terrain &&& tgt.terrain.val = 0 then false else true

/-- Node.has_valid_neighbor_nw from pathing.py: takes the north and west
flanking tiles but its body only tests terrain compatibility. -/
def Node.has_valid_neighbor_nw (s tgt : Node) (n w : Option Node)
    (context : PathContext) : Bool :=
  if context s.terrain &&& tgt.terrain.val = 0 then false else true

/-- Node.has_valid_neighbor_ne from pathing.py: takes the north and east
flanking tiles but its body only tests terrain compatibility. -/
def Node.has_valid_neighbor_ne (s tgt : Node) (n e : Option Node)
    (context : PathContext) : Bool :=
  if context s.terrain &&& tgt.terrain.val = 0 then false else true

/-- Node.has_valid_neighbor_sw from pathing.py: takes the south and west
flanking tiles but its body only tests terrain compatibility. -/
def Node.has_valid_neighbor_sw (s tgt : Node) (s2 w : Option Node)
    (context : PathContext) : Bool :=
  if context s.terrain &&& tgt.terrain.val = 0 then false else true

/-- Node.has_valid_neighbor_se from pathing.py: takes the south and east
flanking tiles but its body only tests terrain compatibility. -/
def Node.has_valid_neighbor_se (s tgt : Node) (s2 e : Option Node)
    (context : PathContext) : Bool :=
  if context s.terrain &&& tgt.terrain.val = 0 then false else true

/-- Placeholder node returned when a Python list index would be out of
range (the source would raise IndexError; all runs examined here stay in
range, so this default is never observable in the proved statements). -/
def Node.sentinel : Node :=
  { x := 0, y := 0, terrain := .FLAT, features := 0,
    N := none, S := none, E := none, W := none,
    NW := none, NE := none, SW := none, SE := none,
    above := .AIR, below := .UNDERGROUND }

/-- The expression tiles[nbrs.X] if nbrs.X else None from
get_valid_neighbors: a slot that is None or 0 is falsy and yields no tile;
otherwise the tile list is indexed. -/
def optNodeAt (tiles : List Node) : Option Int → Option Node
  | none => none
  | some k => if k = 0 then none else some (tiles.getD k.toNat Node.sentinel)

/-- The per-tile body of get_valid_neighbors from pathing.py: starting from
Neighbors.empty, each geometric neighbor that exists (truthy slot) and
passes the corresponding has_valid_neighbor check keeps its ID. -/
def validForTile (tiles : List Node) (tile : Node) (nbrs : Neighbors)
    (ctx : PathContext) : Neighbors :=
  let N := optNodeAt tiles nbrs.N
  let S := optNodeAt tiles nbrs.S
  let E := optNodeAt tiles nbrs.E
  let W := optNodeAt tiles nbrs.W
  { NW := match optNodeAt tiles nbrs.NW with
          | some nd => if tile.has_valid_neighbor_nw nd N W ctx then nbrs.NW
                       else none
          | none => none,
    N := match N with
         | some nd => if tile.has_valid_neighbor_n nd ctx then nbrs.N
                      else none
         | none => none,
    NE := match optNodeAt tiles nbrs.NE with
          | some nd => if tile.has_valid_neighbor_ne nd N E ctx then nbrs.NE
                       else none
          | none => none,
    W := match W with
         | some nd => if tile.has_valid_neighbor_w nd ctx then nbrs.W
                      else none
         | none => none,
    E := match E with
         | some nd => if tile.has_valid_neighbor_e nd ctx then nbrs.E
                      else none
         | none => none,
    SW := match optNodeAt tiles nbrs.SW with
          | some nd => if tile.has_valid_neighbor_sw nd S W ctx then nbrs.SW
                       else none
          | none => none,
    S := match S with
         | some nd => if tile.has_valid_neighbor_s nd ctx then nbrs.S
                      else none
         | none => none,
    SE := match optNodeAt tiles nbrs.SE with
          | some nd => if tile.has_valid_neighbor_se nd S E ctx then nbrs.SE
                       else none
          | none => none }

/-- get_valid_neighbors from pathing.py: one (tid, valid Neighbors) pair
per tile, in tile order. -/
def get_valid_neighbors (tiles : List Node) (neighbors : Nat → Neighbors)
    (ctx : PathContext) : List (Nat × Neighbors) :=
  tiles.enum.map
    (fun p => (p.1, validForTile tiles p.2 (neighbors p.1) ctx))

/-- PathMap from pathing.py: the node list plus grid dimensions. -/
structure PathMap where
  nodes : List Node
  xdims : Nat
  ydims : Nat

/-- PathMap.node from pathing.py (self.nodes[tid]). -/
def PathMap.node (pm : PathMap) (tid : Nat) : Node :=
  pm.nodes.getD tid Node.sentinel

/-- Python set.add on the membership-checked list modelling a set. -/
def addSeen (e : Nat) (seen : List Nat) : List Nat :=
  if e ∈ seen then seen else e :: seen

/-- The inner edge loop of breadth_first_search_depth: each unseen edge is
appended to the next frontier and marked seen. -/
def pushEdgesD : List Nat → List Nat → List Nat → List Nat × List Nat
  | [], nxt, seen => (nxt, seen)
  | e :: rest, nxt, seen =>
    if e ∈ seen then pushEdgesD rest nxt seen
    else pushEdgesD rest (e :: nxt) (e :: seen)

/-- The initial frontier loop of breadth_first_search_depth: every edge of
the source is pushed (unconditionally) and added to the seen set. -/
def initFrontierD : List Nat → List Nat → List Nat → List Nat × List Nat
  | [], curr, seen => (curr, seen)
  | e :: rest, curr, seen => initFrontierD rest (e :: curr) (addSeen e seen)

/-- The nested while-loops of breadth_first_search_depth, fuel-indexed.
Draining the current frontier is one step per pop; when it empties, the
depth is incremented and the frontiers swap (an empty next frontier ends
the search with None, as the outer while does in the source). -/
def bfsDepthGo (pm : PathMap) (tgt : Nat) :
    Nat → List Nat → List Nat → List Nat → Nat → Option Nat
  | 0, _, _, _, _ => none
  | fuel + 1, curr, nxt, seen, depth =>
    match curr with
    | [] =>
      match nxt with
      | [] => none
      | _ => bfsDepthGo pm tgt fuel nxt [] seen (depth + 1)
    | node :: rest =>
      if node = tgt then some depth
      else
        let pushed := pushEdgesD (pm.node node).edges nxt seen
        bfsDepthGo pm tgt fuel rest pushed.1 pushed.2 depth

/-- Fuel that dominates the number of loop steps of either BFS: every push
beyond the initial frontier adds a new element to the seen set, which is
bounded by the total length of all edge lists, and every swap follows at
least one push. -/
def bfsFuel (pm : PathMap) (src : Nat) : Nat :=
  2 * ((pm.nodes.map (fun nd => nd.edges.length)).sum +
       (pm.node src).edges.length + 2)

/-- breadth_first_search_depth from pathing.py. -/
def breadth_first_search_depth (pm : PathMap) (src tgt : Nat) : Option Nat :=
  if src = tgt then some 0
  else
    let start := initFrontierD (pm.node src).edges [] [src]
    bfsDepthGo pm tgt (bfsFuel pm src) start.1 [] start.2 1

/-- The inner edge loop of breadth_first_search: each edge not yet a key of
the seen dict is appended to the next frontier with its predecessor
recorded. -/
def pushEdgesP (node : Nat) :
    List Nat → List Nat → List (Nat × Option Nat) →
    List Nat × List (Nat × Option Nat)
  | [], nxt, seen => (nxt, seen)
  | e :: rest, nxt, seen =>
    if (dictGet e seen).isSome then pushEdgesP node rest nxt seen
    else pushEdgesP node rest (e :: nxt) (dictInsert e (some node) seen)

/-- The initial frontier loop of breadth_first_search: every edge of the
source is pushed and recorded with predecessor src. -/
def initFrontierP (src : Nat) :
    List Nat → List Nat → List (Nat × Option Nat) →
    List Nat × List (Nat × Option Nat)
  | [], curr, seen => (curr, seen)
  | e :: rest, curr, seen =>
    initFrontierP src rest (e :: curr) (dictInsert e (some src) seen)

/-- The path-reconstruction while-loop of breadth_first_search: while
to_node is truthy (neither None nor 0), append it and follow its recorded
predecessor; a missing key (Python KeyError, which never occurs in runs of
the search itself) is modelled as none. -/
def walkChain (seen : List (Nat × Option Nat)) :
    Nat → Option Nat → List Nat → Option (List Nat)
  | _, none, path => some path
  | fuel, some toNode, path =>
    if toNode = 0 then some path
    else
      match fuel with
      | 0 => none
      | fuel + 1 =>
        match dictGet toNode seen with
        | none => none
        | some fromNode => walkChain seen fuel fromNode (path ++ [toNode])

/-- The nested while-loops of breadth_first_search, fuel-indexed. On
popping the target, the predecessor chain is walked and src is appended to
the result, exactly as in the source. -/
def bfsPathGo (pm : PathMap) (src tgt : Nat) :
    Nat → List Nat → List Nat → List (Nat × Option Nat) → Option (List Nat)
  | 0, _, _, _ => none
  | fuel + 1, curr, nxt, seen =>
    match curr with
    | [] =>
      match nxt with
      | [] => none
      | _ => bfsPathGo pm src tgt fuel nxt [] seen
    | node :: rest =>
      if node = tgt then
        match walkChain seen (seen.length + 1) (some node) [] with
        | none => none
        | some path => some (path ++ [src])
      else
        let pushed := pushEdgesP node (pm.node node).edges nxt seen
        bfsPathGo pm src tgt fuel rest pushed.1 pushed.2

/-- breadth_first_search from pathing.py. Note the source returns the
literal list [0] when src == tgt. -/
def breadth_first_search (pm : PathMap) (src tgt : Nat) :
    Option (List Nat) :=
  if src = tgt then some [0]
  else
    let start := initFrontierP src (pm.node src).edges [] [(src, none)]
    bfsPathGo pm src tgt (bfsFuel pm src) start.1 [] start.2

/-- The inner terrain-cost loops of CostTable.from_json_file in
movement.py: for each source terrain row and each target terrain entry
the source stores inner[(tgt_terrain, src_terrain)] = cost, with the key
components in that (target, source) order. -/
def buildInnerCosts (cost_data : List (Terrain × List (Terrain × Int))) :
    List ((Terrain × Terrain) × Int) :=
  cost_data.foldl
    (fun inner p =>
      p.2.foldl (fun inner2 q => dictInsert (q.1, p.1) q.2 inner2) inner)
    []

/-- The outer terrain-cost loop of CostTable.from_json_file: one inner
dictionary per movement type. -/
def buildTerrainCosts
    (tdict : List (MovementType × List (Terrain × List (Terrain × Int)))) :
    List (MovementType × List ((Terrain × Terrain) × Int)) :=
  tdict.foldl (fun acc p => dictInsert p.1 (buildInnerCosts p.2) acc) []

/-- The terrain-pair cost query named by the specification
(terrain_pair_cost(movement_type, src, tgt)): look up the movement type's
dictionary in the built cost table and then the (first, second) key in it,
with the two terrain arguments used in the order given. -/
def terrain_pair_cost
    (table : List (MovementType × List ((Terrain × Terrain) × Int)))
    (mvtype : MovementType) (t1 t2 : Terrain) : Option Int :=
  match dictGet mvtype table with
  | none => none
  | some inner => dictGet (t1, t2) inner

/-- Pathing context granting every terrain every target bit
(TerrainFlags.ALL from movement.py). -/
def ctxAll : PathContext := fun _ => 4294967295

/-- A plain flat tile node with the given coordinates and features and no
neighbor slots set. -/
def flatTile (x y : Int) (features : Nat) : Node :=
  { x := x, y := y, terrain := .FLAT, features := features,
    N := none, S := none, E := none, W := none,
    NW := none, NE := none, SW := none, SE := none,
    above := .AIR, below := .UNDERGROUND }

/-- Concrete scenario for the cardinal-check claim: a source tile at (0,1)
that carries a HIGH_WALL feature (Features.HIGH_WALL = 2) on the shared
edge toward the flat tile at (0,0). -/
def nodeWalledS : Node := flatTile 0 1 2

/-- The plain target tile at (0,0) of the cardinal-check scenario. -/
def nodePlainT : Node := flatTile 0 0 0

/-- Concrete 3-by-3 uniform flat grid whose tile 7 (coordinates (1,2), the
west flank of the NW move from tile 8 to tile 4) carries a HIGH_WALL
feature. -/
def tilesGrid3 : List Node :=
  [flatTile 0 0 0, flatTile 1 0 0, flatTile 2 0 0,
   flatTile 0 1 0, flatTile 1 1 0, flatTile 2 1 0,
   flatTile 0 2 0, flatTile 1 2 2, flatTile 2 2 0]

/-- Geometric neighbors of the 3-by-3 grid, as NeighborMap builds them. -/
def nbGrid3 : Nat → Neighbors :=
  fun tid => NeighborMap.neighbors (tid : Int) 3 3

/-- Concrete three-node path map in which nodes 1 and 2 are mutual
east/west neighbors; node 0 is isolated. -/
def pmPair : PathMap :=
  { nodes :=
      [flatTile 0 0 0,
       { flatTile 1 0 0 with E := some 2 },
       { flatTile 2 0 0 with W := some 1 }],
    xdims := 3, ydims := 1 }

/-- A LocationMap built by two tile inserts at the same coordinates: the
second insert overwrites the first entry, so node ID 0 is lost. -/
def lmDup : LocationMap :=
  (LocationMap.empty.insert 0 0 .FLAT).insert 0 0 .FLAT

/-- Cost configuration declaring exactly one pair for the terrestrial
movement type: source FLAT, target SHALLOW, cost 40. -/
def tdictOnePair :
    List (MovementType × List (Terrain × List (Terrain × Int))) :=
  [(MovementType.TERRESTRIAL, [(Terrain.FLAT, [(Terrain.SHALLOW, 40)])])]

/-- Cost configuration with two movement types and several pairs, used to
exercise the cost-table lookup theorem at a concrete input. -/
def tdictTwoTypes :
    List (MovementType × List (Terrain × List (Terrain × Int))) :=
  [(MovementType.TERRESTRIAL,
    [(Terrain.FLAT, [(Terrain.SHALLOW, 40), (Terrain.FLAT, 10)]),
     (Terrain.SHALLOW, [(Terrain.FLAT, 40)])]),
   (MovementType.AQUATIC,
    [(Terrain.DEEP, [(Terrain.SHALLOW, 20)])])]

/-- Insert sequence used to exercise the fresh-ID theorem at a concrete
input: two tiles, one stored north wall, and one west-wall insert at
x = 0 that stores nothing. -/
def opsFresh : List (Int × Int × Terrain) :=
  [(0, 0, Terrain.FLAT), (1, 0, Terrain.SHALLOW),
   (1, 1, Terrain.HIGH_WALL_N), (0, 5, Terrain.HIGH_WALL_W)]

/-
Theorems.
-/

/-- Python's truthiness filter never lets tile ID 0 through. -/
theorem zero_not_mem_filterMap_truthy (l : List (Option Nat)) :
    0 ∉ l.filterMap truthyNat := by
  intro hmem
  obtain ⟨o, _, he⟩ := List.mem_filterMap.mp hmem
  cases o with
  | none => simp [truthyNat] at he
  | some k =>
    by_cases hk : k = 0 <;> simp [truthyNat, hk] at he

/-- C8: the lists returned by edges, edges_cardinal and edges_diagonal
never contain tile ID 0, even when a neighbor slot of the Node holds the
value 0, because the comprehension guard tests Python truthiness and 0 is
falsy; node 0 can therefore never be discovered as a successor. -/
theorem edges_omit_node_zero (nd : Node) :
    0 ∉ nd.edges ∧ 0 ∉ nd.edges_cardinal ∧ 0 ∉ nd.edges_diagonal :=
  ⟨zero_not_mem_filterMap_truthy _, zero_not_mem_filterMap_truthy _,
   zero_not_mem_filterMap_truthy _⟩

/-- C7: constructing a Node with EMPTY, UNDERGROUND, UNDERWATER or AIR as
base terrain fails with an error, and for every other terrain the
construction succeeds and keeps exactly the given terrain (no default is
substituted). -/
theorem node_init_rejects_invalid_base_terrain (x y : Int) (t : Terrain)
    (f : Nat) (N S E W NW NE SW SE : Option Nat) :
    (Node.init x y t f N S E W NW NE SW SE).toOption.map Node.terrain =
      (if t = .EMPTY ∨ t = .UNDERGROUND ∨ t = .UNDERWATER ∨ t = .AIR
       then none else some t) := by
  cases t <;> rfl

/-- C10: get_west_wall_id returns the same result as get_north_wall_id for
every LocationMap and every coordinate pair, because the source's
get_west_wall_id reads self.walls_n. -/
theorem get_west_wall_id_reads_north_walls (m : LocationMap) (x y : Int) :
    m.get_west_wall_id x y = m.get_north_wall_id x y := rfl

/-- C1: the four cardinal neighbor-validity checks depend only on the two
terrains (so no wall state can influence them), and in a concrete scenario
where the source tile carries a HIGH_WALL feature on the shared edge all
four checks still return true whenever the terrain pair is compatible. -/
theorem cardinal_checks_depend_only_on_terrain :
    (∀ (s t s2 t2 : Node) (ctx : PathContext),
        s.terrain = s2.terrain → t.terrain = t2.terrain →
        (s.has_valid_neighbor_n t ctx = s2.has_valid_neighbor_n t2 ctx ∧
         s.has_valid_neighbor_s t ctx = s2.has_valid_neighbor_s t2 ctx ∧
         s.has_valid_neighbor_e t ctx = s2.has_valid_neighbor_e t2 ctx ∧
         s.has_valid_neighbor_w t ctx = s2.has_valid_neighbor_w t2 ctx)) ∧
    (nodeWalledS.has_valid_neighbor_n nodePlainT ctxAll = true ∧
     nodePlainT.has_valid_neighbor_s nodeWalledS ctxAll = true ∧
     nodeWalledS.has_valid_neighbor_e nodePlainT ctxAll = true ∧
     nodeWalledS.has_valid_neighbor_w nodePlainT ctxAll = true) := by
  constructor
  · intro s t s2 t2 ctx hs ht
    refine ⟨?_, ?_, ?_, ?_⟩ <;>
      simp [Node.has_valid_neighbor_n, Node.has_valid_neighbor_s,
            Node.has_valid_neighbor_e, Node.has_valid_neighbor_w, hs, ht]
  · refine ⟨?_, ?_, ?_, ?_⟩ <;> decide

/-- Closed witness for the cardinal-check theorem: applying it to the
walled source tile and the same tile with its wall feature removed. -/
theorem cardinal_checks_depend_only_on_terrain_witness :
    nodeWalledS.has_valid_neighbor_n nodePlainT ctxAll =
      (flatTile 0 1 0).has_valid_neighbor_n nodePlainT ctxAll :=
  (cardinal_checks_depend_only_on_terrain.1 nodeWalledS nodePlainT
    (flatTile 0 1 0) nodePlainT ctxAll rfl rfl).1

/-- C2: the four diagonal neighbor-validity checks ignore their flanking
tile arguments entirely, and in the built path graph of a 3-by-3 flat grid
whose west flank tile 7 carries a HIGH_WALL feature, the diagonal NW edge
from tile 8 to tile 4 is still present. -/
theorem diagonal_checks_ignore_flanking_tiles :
    (∀ (s t : Node) (n w n2 w2 : Option Node) (ctx : PathContext),
        s.has_valid_neighbor_nw t n w ctx =
          s.has_valid_neighbor_nw t n2 w2 ctx ∧
        s.has_valid_neighbor_ne t n w ctx =
          s.has_valid_neighbor_ne t n2 w2 ctx ∧
        s.has_valid_neighbor_sw t n w ctx =
          s.has_valid_neighbor_sw t n2 w2 ctx ∧
        s.has_valid_neighbor_se t n w ctx =
          s.has_valid_neighbor_se t n2 w2 ctx) ∧
    ((get_valid_neighbors tilesGrid3 nbGrid3 ctxAll).getD 8
        (0, Neighbors.empty)).2.NW = some 4 := by
  constructor
  · intro s t n w n2 w2 ctx
    exact ⟨rfl, rfl, rfl, rfl⟩
  · decide

/-- C3: on the concrete three-node path map, the BFS depth from 1 to 2 is
1, but the BFS path is [2, 1, 1] — three elements instead of depth + 1 = 2,
with the source duplicated at the end (the reconstruction loop already
appends src before the final unconditional path.append(src)). -/
theorem bfs_path_duplicates_source :
    breadth_first_search_depth pmPair 1 2 = some 1 ∧
    breadth_first_search pmPair 1 2 = some [2, 1, 1] := by
  constructor <;> rfl

/-- C4: when source equals target, the BFS depth is 0 as claimed, but the
BFS path is the literal list [0] for every path map and every tile ID, so
for t = 5 it is not the single-tile path [5]. -/
theorem bfs_trivial_path_is_literal_zero :
    breadth_first_search_depth pmPair 5 5 = some 0 ∧
    breadth_first_search pmPair 5 5 = some [0] ∧
    breadth_first_search pmPair 5 5 ≠ some [5] ∧
    (∀ (pm : PathMap) (t : Nat), breadth_first_search pm t t = some [0]) := by
  refine ⟨rfl, rfl, by decide, ?_⟩
  intro pm t
  simp [breadth_first_search]

/-- C5 counterexample: on a 1-column grid (xdims = 1, ydims = 2, both tile
IDs in range) tile 0 lists tile 1 as its East neighbor, but tile 1 does not
list tile 0 as its West neighbor — the elif on the column test never fires
when xdims = 1, so the East-side slots are never cleared. -/
theorem neighbor_symmetry_fails_for_one_column :
    (NeighborMap.neighbors 0 1 2).get Direction.E = some 1 ∧
    (NeighborMap.neighbors 1 1 2).get Direction.W = none ∧
    (0 : Int) < 1 * 2 ∧ (1 : Int) < 1 * 2 := by
  refine ⟨?_, ?_, ?_, ?_⟩ <;> decide

/-- Writing a % m as m * q + r with the usual remainder bounds gives the
remainder back. -/
theorem int_emod_decomp (m q r : Int) (h0 : 0 ≤ r) (h1 : r < m) :
    (m * q + r) % m = r := by
  rw [add_comm, Int.add_mul_emod_self_left, Int.emod_eq_of_lt h0 h1]

/-- C5 (amended to xdims >= 2): for every grid with at least two columns
and all in-range tile IDs A, B, if B is listed as A's neighbor in
direction D then A is listed as B's neighbor in the opposite direction. -/
theorem neighbors_symmetric (xdims ydims A B : Int) (D : Direction)
    (hx : 2 ≤ xdims) (hy : 1 ≤ ydims)
    (hA0 : 0 ≤ A) (hA : A < xdims * ydims)
    (hB0 : 0 ≤ B) (hB : B < xdims * ydims)
    (hD : (NeighborMap.neighbors A xdims ydims).get D = some B) :
    (NeighborMap.neighbors B xdims ydims).get D.opposite = some A := by
  have hm : (0 : Int) < xdims := by omega
  have hq0 : 0 ≤ A / xdims := Int.ediv_nonneg hA0 (le_of_lt hm)
  have hrq : A = xdims * (A / xdims) + A % xdims :=
    (Int.ediv_add_emod A xdims).symm
  have hr0 : 0 ≤ A % xdims := Int.emod_nonneg A (ne_of_gt hm)
  have hrlt : A % xdims < xdims := Int.emod_lt_of_pos A hm
  set r := A % xdims with hrdef
  set q := A / xdims with hqdef
  have hmq0 : 0 ≤ xdims * q := mul_nonneg (le_of_lt hm) hq0
  cases D with
  | N =>
    simp only [NeighborMap.neighbors, Neighbors.get, Direction.opposite]
      at hD ⊢
    by_cases hc : A < xdims
    · rw [if_pos hc] at hD; cases hD
    · rw [if_neg hc] at hD
      injection hD with hBval
      have hcond : ¬ (¬ B < xdims ∧ xdims * ydims - xdims ≤ B) := by
        rintro ⟨-, h2⟩; linarith
      rw [if_neg hcond]
      congr 1; linarith
  | S =>
    simp only [NeighborMap.neighbors, Neighbors.get, Direction.opposite]
      at hD ⊢
    by_cases hc : ¬ A < xdims ∧ xdims * ydims - xdims ≤ A
    · rw [if_pos hc] at hD; cases hD
    · rw [if_neg hc] at hD
      injection hD with hBval
      have hcond : ¬ B < xdims := by linarith
      rw [if_neg hcond]
      congr 1; linarith
  | E =>
    simp only [NeighborMap.neighbors, Neighbors.get, Direction.opposite]
      at hD ⊢
    by_cases hc : ¬ A % xdims = 0 ∧ A % xdims = xdims - 1
    · rw [if_pos hc] at hD; cases hD
    · rw [if_neg hc] at hD
      injection hD with hBval
      rw [← hrdef] at hc
      have hBdec : B = xdims * q + (r + 1) := by rw [← hBval, hrq]; ring
      have hBmod : B % xdims = r + 1 := by
        rw [hBdec]; exact int_emod_decomp _ _ _ (by omega) (by omega)
      have hcond : ¬ B % xdims = 0 := by omega
      rw [if_neg hcond]
      congr 1; linarith
  | W =>
    simp only [NeighborMap.neighbors, Neighbors.get, Direction.opposite]
      at hD ⊢
    by_cases hc : A % xdims = 0
    · rw [if_pos hc] at hD; cases hD
    · rw [if_neg hc] at hD
      injection hD with hBval
      rw [← hrdef] at hc
      have hBdec : B = xdims * q + (r - 1) := by rw [← hBval, hrq]; ring
      have hBmod : B % xdims = r - 1 := by
        rw [hBdec]; exact int_emod_decomp _ _ _ (by omega) (by omega)
      have hcond : ¬ (¬ B % xdims = 0 ∧ B % xdims = xdims - 1) := by omega
      rw [if_neg hcond]
      congr 1; linarith
  | NE =>
    simp only [NeighborMap.neighbors, Neighbors.get, Direction.opposite]
      at hD ⊢
    by_cases hc :
        (¬ A % xdims = 0 ∧ A % xdims = xdims - 1) ∨ A < xdims
    · rw [if_pos hc] at hD; cases hD
    · rw [if_neg hc] at hD
      injection hD with hBval
      rw [← hrdef] at hc
      push_neg at hc
      obtain ⟨hc1, hc2⟩ := hc
      have hr1 : r + 1 < xdims := by
        rcases Classical.em (r = 0) with h0 | h0
        · omega
        · have := hc1 h0; omega
      have hq1 : 1 ≤ q := by
        by_contra h
        push_neg at h
        have h2 : xdims * q ≤ xdims * 0 :=
          mul_le_mul_of_nonneg_left (by omega) (le_of_lt hm)
        rw [mul_zero] at h2
        linarith
      have hBdec : B = xdims * (q - 1) + (r + 1) := by
        rw [← hBval, hrq]; ring
      have hBmod : B % xdims = r + 1 := by
        rw [hBdec]; exact int_emod_decomp _ _ _ (by omega) (by omega)
      have hqY : q < ydims := by
        by_contra h
        push_neg at h
        have h2 : xdims * ydims ≤ xdims * q :=
          mul_le_mul_of_nonneg_left h (le_of_lt hm)
        linarith
      have hBtop : B < xdims * ydims - xdims := by
        have h2 : xdims * (q - 1) ≤ xdims * (ydims - 2) :=
          mul_le_mul_of_nonneg_left (by omega) (le_of_lt hm)
        have h3 : xdims * (ydims - 2) = xdims * ydims - 2 * xdims := by ring
        linarith [hBdec]
      have hcond : ¬ (B % xdims = 0 ∨
          (¬ B < xdims ∧ xdims * ydims - xdims ≤ B)) := by
        rintro (h1 | ⟨-, h3⟩)
        · omega
        · linarith
      rw [if_neg hcond]
      congr 1; linarith
  | NW =>
    simp only [NeighborMap.neighbors, Neighbors.get, Direction.opposite]
      at hD ⊢
    by_cases hc : A % xdims = 0 ∨ A < xdims
    · rw [if_pos hc] at hD; cases hD
    · rw [if_neg hc] at hD
      injection hD with hBval
      rw [← hrdef] at hc
      push_neg at hc
      have hBdec : B = xdims * (q - 1) + (r - 1) := by
        rw [← hBval, hrq]; ring
      have hBmod : B % xdims = r - 1 := by
        rw [hBdec]
        exact int_emod_decomp _ _ _ (by omega) (by omega)
      have hcond : ¬ ((¬ B % xdims = 0 ∧ B % xdims = xdims - 1) ∨
          (¬ B < xdims ∧ xdims * ydims - xdims ≤ B)) := by
        rintro (h1 | ⟨-, h3⟩)
        · omega
        · linarith
      rw [if_neg hcond]
      congr 1; linarith
  | SW =>
    simp only [NeighborMap.neighbors, Neighbors.get, Direction.opposite]
      at hD ⊢
    by_cases hc : A % xdims = 0 ∨
        (¬ A < xdims ∧ xdims * ydims - xdims ≤ A)
    · rw [if_pos hc] at hD; cases hD
    · rw [if_neg hc] at hD
      injection hD with hBval
      rw [← hrdef] at hc
      push_neg at hc
      obtain ⟨hc1, hc2⟩ := hc
      have hr1 : 1 ≤ r := by omega
      have hA1 : 1 ≤ A := by linarith [hrq, hmq0]
      have hBdec : B = xdims * (q + 1) + (r - 1) := by
        rw [← hBval, hrq]; ring
      have hBmod : B % xdims = r - 1 := by
        rw [hBdec]; exact int_emod_decomp _ _ _ (by omega) (by omega)
      have hBbot : ¬ B < xdims := by linarith
      have hcond : ¬ ((¬ B % xdims = 0 ∧ B % xdims = xdims - 1) ∨
          B < xdims) := by
        rintro (h1 | h2)
        · omega
        · exact hBbot h2
      rw [if_neg hcond]
      congr 1; linarith
  | SE =>
    simp only [NeighborMap.neighbors, Neighbors.get, Direction.opposite]
      at hD ⊢
    by_cases hc : (¬ A % xdims = 0 ∧ A % xdims = xdims - 1) ∨
        (¬ A < xdims ∧ xdims * ydims - xdims ≤ A)
    · rw [if_pos hc] at hD; cases hD
    · rw [if_neg hc] at hD
      injection hD with hBval
      rw [← hrdef] at hc
      push_neg at hc
      have hr1 : r + 1 < xdims := by
        rcases Classical.em (r = 0) with h0 | h0
        · omega
        · have := hc.1 h0; omega
      have hBdec : B = xdims * (q + 1) + (r + 1) := by
        rw [← hBval, hrq]; ring
      have hBmod : B % xdims = r + 1 := by
        rw [hBdec]; exact int_emod_decomp _ _ _ (by omega) (by omega)
      have hBbot : ¬ B < xdims := by nlinarith
      have hcond : ¬ (B % xdims = 0 ∨ B < xdims) := by
        rintro (h1 | h2)
        · omega
        · exact hBbot h2
      rw [if_neg hcond]
      congr 1; linarith
  | ABOVE => cases hD
  | BELOW => cases hD

/-- Closed witness for the symmetry theorem: on a 2-by-2 grid tile 0 lists
tile 1 to the East, so tile 1 lists tile 0 to the West. -/
theorem neighbors_symmetric_witness :
    (NeighborMap.neighbors 1 2 2).get Direction.W = some 0 :=
  neighbors_symmetric 2 2 0 1 Direction.E (by decide) (by decide)
    (by decide) (by decide) (by decide) (by decide) (by decide)

/-- Python-dict assignment at a fresh key appends the pair at the end. -/
theorem dictInsert_append_of_not_mem {κ ν : Type} [DecidableEq κ]
    (k : κ) (v : ν) (d : List (κ × ν)) (h : k ∉ d.map Prod.fst) :
    dictInsert k v d = d ++ [(k, v)] := by
  induction d with
  | nil => rfl
  | cons p rest ih =>
    have h1 : ¬ p.1 = k := by
      intro he; exact h (by simp [he])
    have h2 : k ∉ rest.map Prod.fst := by
      intro hm2; exact h (by simp [hm2])
    simp [dictInsert, h1, ih h2]

/-- C9 counterexample: two tile inserts at the same coordinates overwrite
one another, so after them the ID counter is 2 but only ID 1 is stored —
the stored IDs are not 0..nid-1. -/
theorem location_map_insert_overwrites :
    lmDup.nid = 2 ∧ lmDup.storedIds = [1] ∧
    (0 : Nat) ∉ lmDup.storedIds ∧ 0 < lmDup.nid := by
  refine ⟨rfl, rfl, by decide, by decide⟩

/-- Invariant carried through a sequence of LocationMap inserts: if the
stored IDs so far are a permutation of 0..nid-1, the keys of each
dictionary are exactly the effective slots already processed, and the
remaining effective slots are all distinct from each other and from the
processed ones, then the final stored IDs are a permutation of the final
0..nid-1. -/
theorem applyInserts_fresh_aux :
    ∀ (ops : List (Int × Int × Terrain)) (m : LocationMap)
      (done : List (SlotKind × Int × Int)),
      (done ++ ops.filterMap insertSlot).Nodup →
      m.storedIds.Perm (List.range m.nid) →
      (∀ x y : Int,
        ((x, y) ∈ m.tiles.map Prod.fst ↔ (SlotKind.tile, x, y) ∈ done)) →
      (∀ x y : Int,
        ((x, y) ∈ m.walls_n.map Prod.fst ↔ (SlotKind.wallN, x, y) ∈ done)) →
      (∀ x y : Int,
        ((x, y) ∈ m.walls_w.map Prod.fst ↔ (SlotKind.wallW, x, y) ∈ done)) →
      (m.applyInserts ops).storedIds.Perm
        (List.range (m.applyInserts ops).nid) := by
  intro ops
  induction ops with
  | nil =>
    intro m done _ hperm _ _ _
    simpa [LocationMap.applyInserts] using hperm
  | cons op rest ih =>
    intro m done hnodup hperm invT invN invW
    obtain ⟨x, y, t⟩ := op
    have happ : m.applyInserts ((x, y, t) :: rest) =
        (m.insert x y t).applyInserts rest := rfl
    rw [happ]
    by_cases hn : t.is_north_wall
    · by_cases hy : 0 < y
      · -- effective north-wall insert
        have hslot : insertSlot (x, y, t) = some (.wallN, x, y) := by
          simp [insertSlot, hn, hy]
        have hfm : ((x, y, t) :: rest).filterMap insertSlot =
            (SlotKind.wallN, x, y) :: rest.filterMap insertSlot := by
          simp [List.filterMap_cons, hslot]
        rw [hfm] at hnodup
        have hnodup' : ((done ++ [(SlotKind.wallN, x, y)]) ++
            rest.filterMap insertSlot).Nodup := by
          simpa [List.append_assoc] using hnodup
        have hsNotDone : (SlotKind.wallN, x, y) ∉ done := by
          rcases List.nodup_append.mp hnodup with ⟨-, -, hdisj⟩
          intro hmem
          exact hdisj hmem (List.mem_cons_self _ _)
        have hkey : (x, y) ∉ m.walls_n.map Prod.fst := by
          intro hmem
          exact hsNotDone ((invN x y).mp hmem)
        have hins : m.insert x y t =
            { m with walls_n := m.walls_n ++ [((x, y), Location.mk m.nid t)],
                     nid := m.nid + 1 } := by
          simp [LocationMap.insert, hn, hy,
                dictInsert_append_of_not_mem _ _ _ hkey]
        rw [hins]
        apply ih _ (done ++ [(SlotKind.wallN, x, y)]) hnodup'
        · show ((m.tiles ++ (m.walls_n ++ [((x, y), Location.mk m.nid t)]) ++
              m.walls_w).map (fun p => p.2.nid)).Perm (List.range (m.nid + 1))
          have hstep :
              ((m.tiles ++ (m.walls_n ++ [((x, y), Location.mk m.nid t)]) ++
                m.walls_w).map (fun p => p.2.nid)).Perm
                (m.storedIds ++ [m.nid]) := by
            rw [← Multiset.coe_eq_coe]
            simp only [LocationMap.storedIds, List.map_append,
              List.map_cons, List.map_nil, ← Multiset.coe_add]
            push_cast
            abel
          refine hstep.trans ?_
          rw [List.range_succ]
          exact hperm.append_right _
        · intro x2 y2
          simpa using (invT x2 y2).trans (by simp)
        · intro x2 y2
          constructor
          · intro hmem
            rcases by simpa using hmem with hmem' | ⟨hx2, hy2⟩
            · exact List.mem_append_left _ ((invN x2 y2).mp (by simpa using hmem'))
            · subst hx2; subst hy2; simp
          · intro hmem
            rcases by simpa using hmem with hmem' | ⟨hx2, hy2⟩
            · simpa using Or.inl ((invN x2 y2).mpr hmem')
            · subst hx2; subst hy2; simp
        · intro x2 y2
          simpa using (invW x2 y2).trans (by simp)
      · -- north wall at y <= 0: stores nothing
        have hslot : insertSlot (x, y, t) = none := by
          simp [insertSlot, hn, hy]
        have hins : m.insert x y t = m := by
          simp [LocationMap.insert, hn, hy]
        rw [hins]
        apply ih _ done _ hperm invT invN invW
        simpa [List.filterMap_cons, hslot] using hnodup
    · by_cases hw : t.is_west_wall
      · by_cases hx : 0 < x
        · -- effective west-wall insert
          have hslot : insertSlot (x, y, t) = some (.wallW, x, y) := by
            simp [insertSlot, hn, hw, hx]
          have hfm : ((x, y, t) :: rest).filterMap insertSlot =
              (SlotKind.wallW, x, y) :: rest.filterMap insertSlot := by
            simp [List.filterMap_cons, hslot]
          rw [hfm] at hnodup
          have hnodup' : ((done ++ [(SlotKind.wallW, x, y)]) ++
              rest.filterMap insertSlot).Nodup := by
            simpa [List.append_assoc] using hnodup
          have hsNotDone : (SlotKind.wallW, x, y) ∉ done := by
            rcases List.nodup_append.mp hnodup with ⟨-, -, hdisj⟩
            intro hmem
            exact hdisj hmem (List.mem_cons_self _ _)
          have hkey : (x, y) ∉ m.walls_w.map Prod.fst := by
            intro hmem
            exact hsNotDone ((invW x y).mp hmem)
          have hins : m.insert x y t =
              { m with walls_w := m.walls_w ++ [((x, y), Location.mk m.nid t)],
                       nid := m.nid + 1 } := by
            simp [LocationMap.insert, hn, hw, hx,
                  dictInsert_append_of_not_mem _ _ _ hkey]
          rw [hins]
          apply ih _ (done ++ [(SlotKind.wallW, x, y)]) hnodup'
          · show ((m.tiles ++ m.walls_n ++
                (m.walls_w ++ [((x, y), Location.mk m.nid t)])).map
                  (fun p => p.2.nid)).Perm (List.range (m.nid + 1))
            have hstep :
                ((m.tiles ++ m.walls_n ++
                  (m.walls_w ++ [((x, y), Location.mk m.nid t)])).map
                    (fun p => p.2.nid)).Perm (m.storedIds ++ [m.nid]) := by
              rw [← Multiset.coe_eq_coe]
              simp only [LocationMap.storedIds, List.map_append,
                List.map_cons, List.map_nil, ← Multiset.coe_add]
              push_cast
              abel
            refine hstep.trans ?_
            rw [List.range_succ]
            exact hperm.append_right _
          · intro x2 y2
            simpa using (invT x2 y2).trans (by simp)
          · intro x2 y2
            simpa using (invN x2 y2).trans (by simp)
          · intro x2 y2
            constructor
            · intro hmem
              rcases by simpa using hmem with hmem' | ⟨hx2, hy2⟩
              · exact List.mem_append_left _
                  ((invW x2 y2).mp (by simpa using hmem'))
              · subst hx2; subst hy2; simp
            · intro hmem
              rcases by simpa using hmem with hmem' | ⟨hx2, hy2⟩
              · simpa using Or.inl ((invW x2 y2).mpr hmem')
              · subst hx2; subst hy2; simp
        · -- west wall at x <= 0: stores nothing
          have hslot : insertSlot (x, y, t) = none := by
            simp [insertSlot, hn, hw, hx]
          have hins : m.insert x y t = m := by
            simp [LocationMap.insert, hn, hw, hx]
          rw [hins]
          apply ih _ done _ hperm invT invN invW
          simpa [List.filterMap_cons, hslot] using hnodup
      · -- tile insert
        have hslot : insertSlot (x, y, t) = some (.tile, x, y) := by
          simp [insertSlot, hn, hw]
        have hfm : ((x, y, t) :: rest).filterMap insertSlot =
            (SlotKind.tile, x, y) :: rest.filterMap insertSlot := by
          simp [List.filterMap_cons, hslot]
        rw [hfm] at hnodup
        have hnodup' : ((done ++ [(SlotKind.tile, x, y)]) ++
            rest.filterMap insertSlot).Nodup := by
          simpa [List.append_assoc] using hnodup
        have hsNotDone : (SlotKind.tile, x, y) ∉ done := by
          rcases List.nodup_append.mp hnodup with ⟨-, -, hdisj⟩
          intro hmem
          exact hdisj hmem (List.mem_cons_self _ _)
        have hkey : (x, y) ∉ m.tiles.map Prod.fst := by
          intro hmem
          exact hsNotDone ((invT x y).mp hmem)
        have hins : m.insert x y t =
            { m with tiles := m.tiles ++ [((x, y), Location.mk m.nid t)],
                     nid := m.nid + 1 } := by
          simp [LocationMap.insert, hn, hw,
                dictInsert_append_of_not_mem _ _ _ hkey]
        rw [hins]
        apply ih _ (done ++ [(SlotKind.tile, x, y)]) hnodup'
        · show (((m.tiles ++ [((x, y), Location.mk m.nid t)]) ++ m.walls_n ++
              m.walls_w).map (fun p => p.2.nid)).Perm (List.range (m.nid + 1))
          have hstep :
              (((m.tiles ++ [((x, y), Location.mk m.nid t)]) ++ m.walls_n ++
                m.walls_w).map (fun p => p.2.nid)).Perm
                (m.storedIds ++ [m.nid]) := by
            rw [← Multiset.coe_eq_coe]
            simp only [LocationMap.storedIds, List.map_append,
              List.map_cons, List.map_nil, ← Multiset.coe_add]
            push_cast
            abel
          refine hstep.trans ?_
          rw [List.range_succ]
          exact hperm.append_right _
        · intro x2 y2
          constructor
          · intro hmem
            rcases by simpa using hmem with hmem' | ⟨hx2, hy2⟩
            · exact List.mem_append_left _
                ((invT x2 y2).mp (by simpa using hmem'))
            · subst hx2; subst hy2; simp
          · intro hmem
            rcases by simpa using hmem with hmem' | ⟨hx2, hy2⟩
            · simpa using Or.inl ((invT x2 y2).mpr hmem')
            · subst hx2; subst hy2; simp
        · intro x2 y2
          simpa using (invN x2 y2).trans (by simp)
        · intro x2 y2
          simpa using (invW x2 y2).trans (by simp)

/-- C9 (amended: no two stored inserts may target the same dictionary and
coordinates): starting from an empty LocationMap, after any such insert
sequence the stored node IDs across tiles, north walls and west walls are
exactly 0..nid-1 with no duplicates; ineffective inserts (north wall at
y <= 0, west wall at x <= 0) store nothing and every other insert consumes
exactly one fresh ID. -/
theorem location_map_inserts_assign_fresh_ids
    (ops : List (Int × Int × Terrain))
    (hnodup : (ops.filterMap insertSlot).Nodup) :
    (∀ (m : LocationMap) (x y : Int) (t : Terrain),
        (m.insert x y t).nid =
          (if (insertSlot (x, y, t)).isSome then m.nid + 1 else m.nid)) ∧
    (LocationMap.empty.applyInserts ops).storedIds.Perm
      (List.range (LocationMap.empty.applyInserts ops).nid) := by
  constructor
  · intro m x y t
    by_cases hn : t.is_north_wall
    · by_cases hy : 0 < y <;>
        simp [LocationMap.insert, insertSlot, hn, hy]
    · by_cases hw : t.is_west_wall
      · by_cases hx : 0 < x <;>
          simp [LocationMap.insert, insertSlot, hn, hw, hx]
      · simp [LocationMap.insert, insertSlot, hn, hw]
  · apply applyInserts_fresh_aux ops LocationMap.empty []
    · simpa using hnodup
    · simp [LocationMap.storedIds, LocationMap.empty]
    · intro x y; simp [LocationMap.empty]
    · intro x y; simp [LocationMap.empty]
    · intro x y; simp [LocationMap.empty]

/-- Closed witness for the fresh-ID theorem on a concrete insert sequence
with two tiles, one stored north wall and one ineffective west wall. -/
theorem location_map_inserts_assign_fresh_ids_witness :
    (LocationMap.empty.insert 0 5 Terrain.HIGH_WALL_W).nid =
      LocationMap.empty.nid ∧
    (LocationMap.empty.applyInserts opsFresh).storedIds.Perm
      (List.range (LocationMap.empty.applyInserts opsFresh).nid) := by
  have h := location_map_inserts_assign_fresh_ids opsFresh (by decide)
  exact ⟨(h.1 LocationMap.empty 0 5 Terrain.HIGH_WALL_W).trans (by decide),
         h.2⟩

/-- Looking up the key just written by a Python-dict assignment yields the
written value. -/
theorem dictGet_dictInsert_self {κ ν : Type} [DecidableEq κ]
    (k : κ) (v : ν) (d : List (κ × ν)) :
    dictGet k (dictInsert k v d) = some v := by
  induction d with
  | nil => simp [dictInsert, dictGet]
  | cons p rest ih =>
    by_cases h : p.1 = k <;> simp [dictInsert, dictGet, h, ih]

/-- A Python-dict assignment leaves lookups of other keys unchanged. -/
theorem dictGet_dictInsert_ne {κ ν : Type} [DecidableEq κ]
    (k k2 : κ) (v : ν) (d : List (κ × ν)) (h : ¬ k2 = k) :
    dictGet k2 (dictInsert k v d) = dictGet k2 d := by
  have h2 : ¬ k = k2 := fun he => h he.symm
  induction d with
  | nil => simp [dictInsert, dictGet, h2]
  | cons p rest ih =>
    by_cases hp : p.1 = k
    · simp [dictInsert, dictGet, hp, h2]
    · simp [dictInsert, dictGet, hp, ih]

/-- Folding dict assignments whose keys all differ from k leaves the
lookup of k unchanged. -/
theorem foldl_dictInsert_of_ne {κ ν α : Type} [DecidableEq κ]
    (g : α → κ) (f : α → ν) (k : κ) :
    ∀ (l : List α) (a : List (κ × ν)), (∀ z ∈ l, ¬ g z = k) →
      dictGet k (l.foldl (fun acc z => dictInsert (g z) (f z) acc) a) =
        dictGet k a := by
  intro l
  induction l with
  | nil => intro a _; rfl
  | cons z rest ih =>
    intro a hall
    simp only [List.foldl_cons]
    rw [ih _ (fun w hw => hall w (List.mem_cons_of_mem _ hw)),
        dictGet_dictInsert_ne _ _ _ _
          (fun he => hall z (List.mem_cons_self _ _) he.symm)]

/-- Folding dict assignments with pairwise-distinct keys makes the lookup
of any assigned key yield its value. -/
theorem foldl_dictInsert_hit {κ ν α : Type} [DecidableEq κ]
    (g : α → κ) (f : α → ν) :
    ∀ (l : List α) (a : List (κ × ν)) (z : α), z ∈ l → (l.map g).Nodup →
      dictGet (g z) (l.foldl (fun acc w => dictInsert (g w) (f w) acc) a) =
        some (f z) := by
  intro l
  induction l with
  | nil => intro a z hz _; cases hz
  | cons w rest ih =>
    intro a z hz hnd
    simp only [List.map_cons, List.nodup_cons] at hnd
    obtain ⟨hw, hnd2⟩ := hnd
    simp only [List.foldl_cons]
    rcases List.mem_cons.mp hz with rfl | hz2
    · rw [foldl_dictInsert_of_ne g f (g z) rest _ ?_, dictGet_dictInsert_self]
      intro w2 hw2 he
      exact hw (he ▸ List.mem_map_of_mem g hw2)
    · exact ih _ z hz2 hnd2

/-- Rows of the inner cost loop whose source terrain differs from src never
touch the key (tgt, src). -/
theorem buildInnerCosts_rows_preserve (src tgt : Terrain) :
    ∀ (rows : List (Terrain × List (Terrain × Int)))
      (a : List ((Terrain × Terrain) × Int)),
      (∀ p ∈ rows, ¬ p.1 = src) →
      dictGet (tgt, src)
        (rows.foldl
          (fun inner p =>
            p.2.foldl (fun inner2 q => dictInsert (q.1, p.1) q.2 inner2)
              inner) a) = dictGet (tgt, src) a := by
  intro rows
  induction rows with
  | nil => intro a _; rfl
  | cons p rest ih =>
    intro a hall
    simp only [List.foldl_cons]
    rw [ih _ (fun z hz => hall z (List.mem_cons_of_mem _ hz))]
    apply foldl_dictInsert_of_ne (fun q => (q.1, p.1)) (fun q => q.2)
      (tgt, src) p.2 a
    intro q _ he
    exact hall p (List.mem_cons_self _ _) (congrArg Prod.snd he)

/-- The inner cost loop records cost c under the key (tgt, src) for every
declared row, provided sources are declared once and, within each row,
targets are declared once. -/
theorem buildInnerCosts_lookup :
    ∀ (cd : List (Terrain × List (Terrain × Int)))
      (a : List ((Terrain × Terrain) × Int))
      (src : Terrain) (tl : List (Terrain × Int)) (tgt : Terrain) (c : Int),
      (cd.map Prod.fst).Nodup →
      (∀ p ∈ cd, (p.2.map Prod.fst).Nodup) →
      (src, tl) ∈ cd → (tgt, c) ∈ tl →
      dictGet (tgt, src)
        (cd.foldl
          (fun inner p =>
            p.2.foldl (fun inner2 q => dictInsert (q.1, p.1) q.2 inner2)
              inner) a) = some c := by
  intro cd
  induction cd with
  | nil => intro a src tl tgt c _ _ hmem _; cases hmem
  | cons p rest ih =>
    intro a src tl tgt c hnd hinner hmem htl
    simp only [List.map_cons, List.nodup_cons] at hnd
    obtain ⟨hp1, hnd2⟩ := hnd
    simp only [List.foldl_cons]
    rcases List.mem_cons.mp hmem with rfl | hmem2
    · rw [buildInnerCosts_rows_preserve src tgt rest _ ?_]
      · have hgnd : (tl.map (fun q => ((q.1, src) : Terrain × Terrain))).Nodup := by
          have h1 : (tl.map Prod.fst).Nodup := hinner (src, tl) (List.mem_cons_self _ _)
          have h2 := h1.map
            (f := fun t => ((t, src) : Terrain × Terrain))
            (fun u v he => (Prod.mk.injEq _ _ _ _).mp he |>.1)
          simpa [List.map_map, Function.comp] using h2
        have := foldl_dictInsert_hit (fun q => ((q.1, src) : Terrain × Terrain))
          (fun q => q.2) tl a (tgt, c) htl hgnd
        simpa using this
      · intro z hz he
        apply hp1
        show src ∈ rest.map Prod.fst
        exact he ▸ List.mem_map_of_mem Prod.fst hz
    · exact ih _ src tl tgt c hnd2
        (fun z hz => hinner z (List.mem_cons_of_mem _ hz)) hmem2 htl

/-- C6 counterexample: with a configuration declaring exactly the pair
source FLAT, target SHALLOW at cost 40, querying the built table with
source first returns nothing, while the reversed query returns 40 — the
construction stores inner[(tgt, src)] = cost. -/
theorem terrain_pair_cost_source_first_fails :
    terrain_pair_cost (buildTerrainCosts tdictOnePair)
      MovementType.TERRESTRIAL Terrain.FLAT Terrain.SHALLOW = none ∧
    terrain_pair_cost (buildTerrainCosts tdictOnePair)
      MovementType.TERRESTRIAL Terrain.SHALLOW Terrain.FLAT = some 40 := by
  constructor <;> decide

/-- C6 (amended: the key order is reversed): for every cost configuration
in which movement types, source rows, and targets within a row are each
declared once, a declared cost c for (source src, target tgt) is returned
by the built table when queried with the target terrain first and the
source terrain second. -/
theorem terrain_pair_cost_target_first
    (tdict : List (MovementType × List (Terrain × List (Terrain × Int))))
    (mt : MovementType) (cost_data : List (Terrain × List (Terrain × Int)))
    (src : Terrain) (tgtlist : List (Terrain × Int)) (tgt : Terrain) (c : Int)
    (hmtN : (tdict.map Prod.fst).Nodup)
    (hmtMem : (mt, cost_data) ∈ tdict)
    (hsrcN : (cost_data.map Prod.fst).Nodup)
    (hinnerN : ∀ p ∈ cost_data, (p.2.map Prod.fst).Nodup)
    (hsrcMem : (src, tgtlist) ∈ cost_data)
    (htgtMem : (tgt, c) ∈ tgtlist) :
    terrain_pair_cost (buildTerrainCosts tdict) mt tgt src = some c := by
  have houter : dictGet mt (buildTerrainCosts tdict) =
      some (buildInnerCosts cost_data) := by
    have := foldl_dictInsert_hit Prod.fst
      (fun p : MovementType × List (Terrain × List (Terrain × Int)) =>
        buildInnerCosts p.2) tdict [] (mt, cost_data) hmtMem hmtN
    simpa [buildTerrainCosts] using this
  have hinner : dictGet (tgt, src) (buildInnerCosts cost_data) = some c :=
    buildInnerCosts_lookup cost_data [] src tgtlist tgt c hsrcN hinnerN
      hsrcMem htgtMem
  simp [terrain_pair_cost, houter, hinner]

/-- Closed witness for the reversed-key cost lookup on the two-movement
configuration: aquatic DEEP to SHALLOW was declared at cost 20 and is
found under the key (SHALLOW, DEEP). -/
theorem terrain_pair_cost_target_first_witness :
    terrain_pair_cost (buildTerrainCosts tdictTwoTypes)
      MovementType.AQUATIC Terrain.SHALLOW Terrain.DEEP = some 20 :=
  terrain_pair_cost_target_first tdictTwoTypes MovementType.AQUATIC
    [(Terrain.DEEP, [(Terrain.SHALLOW, 20)])] Terrain.DEEP
    [(Terrain.SHALLOW, 20)] Terrain.SHALLOW 20
    (by decide) (by decide) (by decide)
    (by intro p hp; fin_cases hp; decide) (by decide) (by decide)

end PathViz
